import Mathlib

/-
Verification of the semantic core of the rlox tree-walking interpreter
(a Rust implementation of the Lox language).

The development is a shallow embedding of the Rust sources:

  * src/lox_type.rs     -> LoxType, loxEq, truthy
  * src/token.rs        -> Token, tokenEq (the derived PartialEq), token_hash_key
  * src/ast.rs          -> Expr, Stmt, Expr.is_nil
  * src/environment.rs  -> Environment (value model) and the arena model Frame
  * src/function.rs     -> Function, callFunction, bindFunction
  * src/class.rs        -> LoxClass, find_method, instanceGet, instSet
  * src/resolver.rs     -> resolve_statement, resolve_expression, resolve_local
  * src/interpreter.rs  -> execute, evaluate, execute_block, interpret

Rust HashMaps are modelled as association lists (insert replaces the value of
an existing key, otherwise appends).  Shared mutable environments
(Rc<RefCell<Environment>>) and instances are modelled with an arena of frames
addressed by stable indices, which is the representation the design notes of
the specification explicitly allow; the standalone chain operations of
environment.rs are additionally modelled as a pure value type Environment.
Rust panics (expect / unreachable) are modelled as an explicit panics outcome,
distinct from the interpreter runtime errors.  The recursive evaluator is
modelled with an explicit fuel parameter; fuel exhaustion is a distinguished
outcome that real terminating runs never produce.
-/

namespace RLox

/-
IEEE double model.  Finite doubles are modelled as exact rationals together
with a distinguished negative zero, plus the two infinities and NaN.  Equality
and comparisons follow the IEEE rules used by Rust f64 (negative zero equals
zero, NaN compares unequal to everything including itself).  Arithmetic on
finite values is exact rational arithmetic; rounding is not modelled, and no
claim below depends on the numeric result of an arithmetic operator.
-/
inductive F64 where
  | nan
  | inf (neg : Bool)
  | negZero
  | val (q : Rat)
deriving DecidableEq

def F64.isZero : F64 → Bool
  | .negZero => true
  | .val q => q == 0
  | _ => false

def F64.isNeg : F64 → Bool
  | .nan => false
  | .inf s => s
  | .negZero => true
  | .val q => q < 0

def f64ToRat : F64 → Rat
  | .negZero => 0
  | .val q => q
  | _ => 0

def f64Eq : F64 → F64 → Bool
  | .nan, _ => false
  | _, .nan => false
  | .inf s, .inf t => s == t
  | .inf _, _ => false
  | _, .inf _ => false
  | .negZero, .negZero => true
  | .negZero, .val q => q == 0
  | .val q, .negZero => q == 0
  | .val p, .val q => p == q

def f64Cmp : F64 → F64 → Option Ordering
  | .nan, _ => none
  | _, .nan => none
  | .inf true, .inf true => some .eq
  | .inf true, _ => some .lt
  | _, .inf true => some .gt
  | .inf false, .inf false => some .eq
  | .inf false, _ => some .gt
  | _, .inf false => some .lt
  | a, b => some (compare (f64ToRat a) (f64ToRat b))

def f64Gt (a b : F64) : Bool := f64Cmp a b == some .gt

def f64Ge (a b : F64) : Bool := f64Cmp a b == some .gt || f64Cmp a b == some .eq

def f64Lt (a b : F64) : Bool := f64Cmp a b == some .lt

def f64Le (a b : F64) : Bool := f64Cmp a b == some .lt || f64Cmp a b == some .eq

def f64Neg : F64 → F64
  | .nan => .nan
  | .inf s => .inf (!s)
  | .negZero => .val 0
  | .val q => if q == 0 then .negZero else .val (-q)

def f64Add : F64 → F64 → F64
  | .nan, _ => .nan
  | _, .nan => .nan
  | .inf s, .inf t => if s == t then .inf s else .nan
  | .inf s, _ => .inf s
  | _, .inf t => .inf t
  | .negZero, .negZero => .negZero
  | .negZero, b => b
  | a, .negZero => a
  | .val p, .val q => .val (p + q)

def f64Sub (a b : F64) : F64 := f64Add a (f64Neg b)

def f64Mul (a b : F64) : F64 :=
  match a, b with
  | .nan, _ => .nan
  | _, .nan => .nan
  | .inf _, x => if x.isZero then .nan else .inf (a.isNeg != b.isNeg)
  | x, .inf _ => if x.isZero then .nan else .inf (a.isNeg != b.isNeg)
  | _, _ =>
    if a.isZero || b.isZero then
      (if a.isNeg != b.isNeg then .negZero else .val 0)
    else .val (f64ToRat a * f64ToRat b)

def f64Div (a b : F64) : F64 :=
  match a, b with
  | .nan, _ => .nan
  | _, .nan => .nan
  | .inf _, .inf _ => .nan
  | .inf _, _ => .inf (a.isNeg != b.isNeg)
  | _, .inf _ => if a.isNeg != b.isNeg then .negZero else .val 0
  | _, _ =>
    if b.isZero then
      (if a.isZero then .nan else .inf (a.isNeg != b.isNeg))
    else if a.isZero then
      (if a.isNeg != b.isNeg then .negZero else .val 0)
    else .val (f64ToRat a / f64ToRat b)

/-
token_type.rs is declared in lib.rs but absent from src/.
Modelled from the spec: the token kinds of the external scanner interface
(spec section 6), reconstructed from the uses of TokenType across scanner.rs,
parser.rs and interpreter.rs.
-/
inductive TokenType where
  | leftParen | rightParen | leftBrace | rightBrace
  | comma | dot | minus | plus | semiColon | slash | star
  | bang | bangEqual | equal | equalEqual
  | greater | greaterEqual | less | lessEqual
  | identifier | stringLit | numberLit
  | andKw | classKw | elseKw | falseKw | funKw | forKw | ifKw | nilKw
  | orKw | printKw | returnKw | superKw | thisKw | trueKw | varKw | whileKw
  | eof
deriving DecidableEq

/-
The literal payload a token or an AST literal can carry: the four primitive
variants of LoxType (lox_type.rs).  Kept as a separate type so that the AST
does not recursively mention runtime closures.
-/
inductive LoxLit where
  | boolean (b : Bool)
  | nil
  | number (n : F64)
  | string (s : String)
deriving DecidableEq

/-- The PartialEq of lox_type.rs restricted to literal payloads. -/
def litEq : LoxLit → LoxLit → Bool
  | .boolean n, .boolean m => n == m
  | .nil, .nil => true
  | .number n, .number m => f64Eq n m
  | .string n, .string m => n == m
  | _, _ => false

/-- token.rs: Token { token_type, lexeme, literal, line }. -/
structure Token where
  token_type : TokenType
  lexeme : String
  literal : Option LoxLit
  line : Nat
deriving DecidableEq

def optLitEq : Option LoxLit → Option LoxLit → Bool
  | none, none => true
  | some a, some b => litEq a b
  | _, _ => false

/--
The derived PartialEq of token.rs: field-wise equality over all four fields,
the literal field compared with the PartialEq of LoxType.
-/
def tokenEq (a b : Token) : Bool :=
  a.token_type == b.token_type && a.lexeme == b.lexeme &&
    optLitEq a.literal b.literal && a.line == b.line

/--
The manual Hash impl of token.rs feeds exactly the lexeme and the line to the
hasher; two tokens hash identically if and only if they agree on this key.
-/
def token_hash_key (t : Token) : String × Nat := (t.lexeme, t.line)

/- ast.rs: expression and statement kinds. -/
mutual

inductive Expr where
  | assign (name : Token) (value : Expr)
  | binary (left : Expr) (operator : Token) (right : Expr)
  | call (callee : Expr) (paren : Token) (arguments : List Expr)
  | get (object : Expr) (name : Token)
  | grouping (e : Expr)
  | literal (v : LoxLit)
  | logical (left : Expr) (operator : Token) (right : Expr)
  | set (object : Expr) (name : Token) (value : Expr)
  | superE (keyword : Token) (method : Token)
  | this (keyword : Token)
  | unary (operator : Token) (right : Expr)
  | variableE (name : Token)

inductive Stmt where
  | block (stmts : List Stmt)
  | classDecl (name : Token) (methods : List Stmt) (opt_superclass : Option Expr)
  | expression (e : Expr)
  | function (name : Token) (params : List Token) (body : List Stmt)
  | ifStmt (condition : Expr) (then_branch : Stmt) (opt_else_branch : Option Stmt)
  | print (e : Expr)
  | returnStmt (keyword : Token) (value : Expr)
  | var (name : Token) (initializer : Expr)
  | whileStmt (condition : Expr) (body : Stmt)

end

/-- ast.rs: Expr::is_nil, true exactly on the literal Nil expression. -/
def Expr.is_nil : Expr → Bool
  | .literal .nil => true
  | _ => false

/- Association lists model Rust HashMap<String, V>. -/

def listGet {α : Type} : List (String × α) → String → Option α
  | [], _ => none
  | (k, v) :: rest, key => if k == key then some v else listGet rest key

/-- HashMap::insert: replace the value of an existing key, otherwise append. -/
def listInsert {α : Type} : List (String × α) → String → α → List (String × α)
  | [], key, value => [(key, value)]
  | (k, v) :: rest, key, value =>
    if k == key then (k, value) :: rest else (k, v) :: listInsert rest key value

def listContainsKey {α : Type} (l : List (String × α)) (key : String) : Bool :=
  (listGet l key).isSome

/-
function.rs: Function.  The only native function of the interpreter is clock;
a native body is a host function pointer, modelled by its arity alone (see
callFunction).  A user function captures the defining environment by an arena
index.
-/
inductive Function where
  | native (arity : Nat)
  | user (name : Token) (params : List Token) (body : List Stmt)
      (closure : Nat) (is_initializer : Bool)

def Function.arity : Function → Nat
  | .native a => a
  | .user _ params _ _ _ => params.length

/-- class.rs: LoxClass { name, methods, superclass }. -/
inductive LoxClass where
  | mk (name : String) (methods : List (String × Function))
      (superclass : Option LoxClass)

def LoxClass.name : LoxClass → String
  | .mk n _ _ => n

def LoxClass.methods : LoxClass → List (String × Function)
  | .mk _ m _ => m

def LoxClass.superclassOf : LoxClass → Option LoxClass
  | .mk _ _ s => s

/-- class.rs: find_method, own table first, then superclass delegation. -/
def LoxClass.find_method : LoxClass → String → Option Function
  | .mk _ methods sc, name =>
    match listGet methods name with
    | some f => some f
    | none =>
      match sc with
      | some s => LoxClass.find_method s name
      | none => none

/-
lox_type.rs / interpreter.rs: runtime values.  The four primitive variants are
those of lox_type.rs; Callable, Class and Instance are the variants
interpreter.rs manipulates (spec section 3 value model).  Classes are
immutable after creation and therefore held by value; instances are mutable
and held by arena index.
-/
inductive LoxType where
  | boolean (b : Bool)
  | nil
  | number (n : F64)
  | string (s : String)
  | callable (f : Function)
  | classV (c : LoxClass)
  | instanceV (idx : Nat)

def litToLox : LoxLit → LoxType
  | .boolean b => .boolean b
  | .nil => .nil
  | .number n => .number n
  | .string s => .string s

/--
The PartialEq impl of lox_type.rs: the four primitive same-variant arms, every
other pair falls to the catch-all and is unequal.
-/
def loxEq : LoxType → LoxType → Bool
  | .boolean n, .boolean m => n == m
  | .nil, .nil => true
  | .number n, .number m => f64Eq n m
  | .string n, .string m => n == m
  | _, _ => false

/-- lox_type.rs: From<LoxType> for bool, the truthiness rule. -/
def truthy : LoxType → Bool
  | .boolean b => b
  | .nil => false
  | _ => true

/- Strings used by panic and error messages (apostrophe built explicitly). -/

def sq : String := String.singleton (Char.ofNat 39)

def undefinedVarPanic (name : String) : String :=
  "Undefined variable " ++ sq ++ name ++ sq

def undefinedVarError (name : String) : String :=
  undefinedVarPanic name ++ "."

def noEnclosingMsg (i : Nat) : String :=
  "No enclosing environment at " ++ toString i

/-
environment.rs as a value model: an Environment is its own map of values plus
an optional enclosing environment.  Mutating operations return the updated
chain.  Except String models the Rust panics raised by expect.
-/
inductive Environment where
  | mk (values : List (String × LoxType)) (enclosing : Option Environment)

def Environment.values : Environment → List (String × LoxType)
  | .mk v _ => v

def Environment.enclosing : Environment → Option Environment
  | .mk _ e => e

/-- environment.rs: get, search own map first, then the enclosing chain
(the two enclosing cases of the source are split into top-level arms). -/
def Environment.get : Environment → String → Option LoxType
  | .mk vs none, name =>
    match listGet vs name with
    | some v => some v
    | none => none
  | .mk vs (some e), name =>
    match listGet vs name with
    | some v => some v
    | none => Environment.get e name

/-- environment.rs: define always writes into the own map. -/
def Environment.define : Environment → String → LoxType → Environment
  | .mk vs enc, name, value => .mk (listInsert vs name value) enc

/-
environment.rs: ancestor.  The first enclosing link is taken unconditionally
(panicking with index 1 when absent), then the loop for i in 1..distance
follows one more link per iteration, panicking with the loop index when a
link is absent.
-/
def ancestorGo : Environment → Nat → Nat → Except String Environment
  | e, _, 0 => .ok e
  | e, i, steps+1 =>
    match e.enclosing with
    | none => .error (noEnclosingMsg i)
    | some p => ancestorGo p (i+1) steps

def Environment.ancestor (env : Environment) (distance : Nat) :
    Except String Environment :=
  match env.enclosing with
  | none => .error (noEnclosingMsg 1)
  | some parent => ancestorGo parent 1 (distance - 1)

/--
environment.rs: get_at.  For positive distance the scope reached by ancestor
is consulted, for distance zero the own map; in both cases a missing name is
an expect panic whose message references the name, and no wider search is
performed.  The Rust function returns Option but never returns None: the
success value is always Some.
-/
def Environment.get_at (env : Environment) (distance : Nat) (name : String) :
    Except String (Option LoxType) :=
  if distance > 0 then
    match env.ancestor distance with
    | .error m => .error m
    | .ok a =>
      match listGet a.values name with
      | none => .error (undefinedVarPanic name)
      | some v => .ok (some v)
  else
    match listGet env.values name with
    | none => .error (undefinedVarPanic name)
    | some v => .ok (some v)

/--
environment.rs: assign.  Returns whether the assignment succeeded together
with the updated chain; the first scope searching outward that contains the
name is updated via define, and no new binding is ever created.
-/
def Environment.assign : Environment → String → LoxType → Bool × Environment
  | .mk vs enc, name, value =>
    if listContainsKey vs name then
      (true, Environment.define (.mk vs enc) name value)
    else
      match enc with
      | some e =>
        let r := Environment.assign e name value
        (r.1, .mk vs (some r.2))
      | none => (false, .mk vs none)

/--
environment.rs: the body of assign_at for positive distance, written as a
path-preserving update: walk exactly as ancestor does (with the same panic
messages) and insert into the map of the scope reached.
-/
def insertAtAncestorGo :
    Environment → Nat → Nat → String → LoxType → Except String Environment
  | .mk vs enc, _, 0, name, value => .ok (.mk (listInsert vs name value) enc)
  | .mk vs enc, i, steps+1, name, value =>
    match enc with
    | none => .error (noEnclosingMsg i)
    | some p =>
      match insertAtAncestorGo p (i+1) steps name value with
      | .error m => .error m
      | .ok p2 => .ok (.mk vs (some p2))

def Environment.insert_at_ancestor (env : Environment) (distance : Nat)
    (name : String) (value : LoxType) : Except String Environment :=
  match env with
  | .mk vs enc =>
    match enc with
    | none => .error (noEnclosingMsg 1)
    | some parent =>
      match insertAtAncestorGo parent 1 (distance - 1) name value with
      | .error m => .error m
      | .ok p2 => .ok (.mk vs (some p2))

/--
environment.rs: assign_at.  Inserts unconditionally into the scope exactly
distance hops out (its own map for distance zero) and reports true.
-/
def Environment.assign_at (env : Environment) (distance : Nat) (name : String)
    (value : LoxType) : Except String (Bool × Environment) :=
  if distance > 0 then
    match env.insert_at_ancestor distance name value with
    | .error m => .error m
    | .ok e2 => .ok (true, e2)
  else
    match env with
    | .mk vs enc => .ok (true, .mk (listInsert vs name value) enc)

/- Specification helpers used only in theorem statements. -/

/-- Follow exactly n enclosing links. -/
def specWalk : Environment → Nat → Option Environment
  | e, 0 => some e
  | .mk _ none, _+1 => none
  | .mk _ (some p), n+1 => specWalk p n

/-- The own maps of the chain, innermost first. -/
def chainMaps : Environment → List (List (String × LoxType))
  | .mk vs none => [vs]
  | .mk vs (some p) => vs :: chainMaps p

/-- The hop count of the first scope searching outward that contains name. -/
def firstHop : Environment → String → Option Nat
  | .mk vs enc, name =>
    if listContainsKey vs name then some 0
    else
      match enc with
      | some p => (firstHop p name).map (· + 1)
      | none => none

/- The resolver hop-distance table: HashMap<Token, usize>, keyed by the
derived token equality. -/

def localsGet : List (Token × Nat) → Token → Option Nat
  | [], _ => none
  | (t, d) :: rest, key => if tokenEq t key then some d else localsGet rest key

def localsInsert : List (Token × Nat) → Token → Nat → List (Token × Nat)
  | [], key, d => [(key, d)]
  | (t, d0) :: rest, key, d =>
    if tokenEq t key then (t, d) :: rest else (t, d0) :: localsInsert rest key d

/-- The possible results of a variable lookup, panics included. -/
inductive LookupOutcome where
  | value (v : LoxType)
  | runtime_error (tok : Token) (msg : String)
  | panics (msg : String)

/--
interpreter.rs: lookup_variable, expressed over the Environment value model:
a recorded hop-distance is used through get_at on the current chain, otherwise
the name is looked up dynamically in the globals; an absent unresolved name is
the runtime error naming the variable, while panics of get_at propagate.
-/
def lookup_variable (locals : List (Token × Nat)) (env globals : Environment)
    (name : Token) : LookupOutcome :=
  let opt_value : Except String (Option LoxType) :=
    match localsGet locals name with
    | some distance => env.get_at distance name.lexeme
    | none => .ok (globals.get name.lexeme)
  match opt_value with
  | .error m => .panics m
  | .ok (some v) => .value v
  | .ok none => .runtime_error name (undefinedVarError name.lexeme)

/-
The arena model of the shared mutable environment chain used by the
interpreter: every Rc<RefCell<Environment>> is a stable index into a list of
frames, each frame holding its own map and the index of its enclosing frame.
The spec design notes allow exactly this representation.  The bodies of the
operations mirror environment.rs.
-/
structure Frame where
  values : List (String × LoxType)
  enclosing : Option Nat

/-- class.rs: LoxInstance { class, fields }, held in an arena of its own. -/
structure InstData where
  cls : LoxClass
  fields : List (String × LoxType)

/-- interpreter.rs: Interpreter state plus the two arenas and print output. -/
structure State where
  envs : List Frame
  insts : List InstData
  globals : Nat
  cur : Nat
  locals : List (Token × Nat)
  output : List String

/-- environment.rs get on the arena; the fuel bounds the outward walk. -/
def envGetFuel : Nat → List Frame → Nat → String → Option LoxType
  | 0, _, _, _ => none
  | fuel+1, envs, ref, name =>
    match envs[ref]? with
    | none => none
    | some fr =>
      match listGet fr.values name with
      | some v => some v
      | none =>
        match fr.enclosing with
        | some p => envGetFuel fuel envs p name
        | none => none

/--
environment.rs: get on the arena.  Any chain in a heap of n frames that
terminates at a root visits at most n distinct frames, so n+1 fuel is exact.
-/
def envGet (envs : List Frame) (ref : Nat) (name : String) : Option LoxType :=
  envGetFuel (envs.length + 1) envs ref name

/-- environment.rs assign on the arena; mutates the frame where the name is
found, searching outward, and reports success. -/
def envAssignFuel : Nat → List Frame → Nat → String → LoxType → Bool × List Frame
  | 0, envs, _, _, _ => (false, envs)
  | fuel+1, envs, ref, name, value =>
    match envs[ref]? with
    | none => (false, envs)
    | some fr =>
      if listContainsKey fr.values name then
        (true, envs.set ref ⟨listInsert fr.values name value, fr.enclosing⟩)
      else
        match fr.enclosing with
        | some p => envAssignFuel fuel envs p name value
        | none => (false, envs)

def envAssign (envs : List Frame) (ref : Nat) (name : String) (value : LoxType) :
    Bool × List Frame :=
  envAssignFuel (envs.length + 1) envs ref name value

/-- environment.rs define on the arena. -/
def envDefine (envs : List Frame) (ref : Nat) (name : String) (value : LoxType) :
    List Frame :=
  match envs[ref]? with
  | none => envs
  | some fr => envs.set ref ⟨listInsert fr.values name value, fr.enclosing⟩

/-- environment.rs ancestor on the arena: the same walk and panic messages as
the value model; a dangling index is impossible in heaps the interpreter
builds and is mapped to the missing-enclosing panic. -/
def envAncestorGo (envs : List Frame) : Nat → Nat → Nat → Except String Nat
  | ref, _, 0 => .ok ref
  | ref, i, steps+1 =>
    match envs[ref]? with
    | none => .error (noEnclosingMsg i)
    | some fr =>
      match fr.enclosing with
      | none => .error (noEnclosingMsg i)
      | some p => envAncestorGo envs p (i+1) steps

def envAncestor (envs : List Frame) (ref : Nat) (distance : Nat) :
    Except String Nat :=
  match envs[ref]? with
  | none => .error (noEnclosingMsg 1)
  | some fr =>
    match fr.enclosing with
    | none => .error (noEnclosingMsg 1)
    | some parent => envAncestorGo envs parent 1 (distance - 1)

/-- environment.rs get_at on the arena. -/
def envGetAt (envs : List Frame) (ref : Nat) (distance : Nat) (name : String) :
    Except String (Option LoxType) :=
  if distance > 0 then
    match envAncestor envs ref distance with
    | .error m => .error m
    | .ok a =>
      match envs[a]? with
      | none => .error (undefinedVarPanic name)
      | some fr =>
        match listGet fr.values name with
        | none => .error (undefinedVarPanic name)
        | some v => .ok (some v)
  else
    match envs[ref]? with
    | none => .error (undefinedVarPanic name)
    | some fr =>
      match listGet fr.values name with
      | none => .error (undefinedVarPanic name)
      | some v => .ok (some v)

/-- environment.rs assign_at on the arena: unconditional insert at the exact
ancestor, always reporting true. -/
def envAssignAt (envs : List Frame) (ref : Nat) (distance : Nat) (name : String)
    (value : LoxType) : Except String (Bool × List Frame) :=
  if distance > 0 then
    match envAncestor envs ref distance with
    | .error m => .error m
    | .ok a =>
      match envs[a]? with
      | none => .error (noEnclosingMsg 1)
      | some fr =>
        .ok (true, envs.set a ⟨listInsert fr.values name value, fr.enclosing⟩)
  else
    match envs[ref]? with
    | none => .error (noEnclosingMsg 1)
    | some fr =>
      .ok (true, envs.set ref ⟨listInsert fr.values name value, fr.enclosing⟩)

/-- Reify the chain reachable from an arena index as an Environment value. -/
def reifyFuel (envs : List Frame) : Nat → Nat → Option Environment
  | 0, _ => none
  | fuel+1, ref =>
    match envs[ref]? with
    | none => none
    | some fr =>
      match fr.enclosing with
      | none => some (.mk fr.values none)
      | some p => (reifyFuel envs fuel p).map (fun e => .mk fr.values (some e))

def reifyEnv (envs : List Frame) (ref : Nat) : Option Environment :=
  reifyFuel envs (envs.length + 1) ref

/-
interpreter.rs: the result of executing a statement or evaluating an
expression.  ok is the Ok value; err is InterpreterError::RuntimeError with
its optional token and message; ret is the InterpreterError::Return control
transfer; panics models a Rust panic; fuelOut marks fuel exhaustion of the
model and corresponds to no behavior of the source.
-/
inductive Outcome (α : Type) where
  | ok (a : α)
  | err (tok : Option Token) (msg : String)
  | ret (v : LoxType)
  | panics (msg : String)
  | fuelOut

/-- The question-mark operator: propagate anything that is not ok. -/
def andThen {α β : Type} (r : Outcome α × State)
    (k : α → State → Outcome β × State) : Outcome β × State :=
  match r with
  | (.ok a, st) => k a st
  | (.err t m, st) => (.err t m, st)
  | (.ret v, st) => (.ret v, st)
  | (.panics m, st) => (.panics m, st)
  | (.fuelOut, st) => (.fuelOut, st)

def setEnvs (st : State) (envs : List Frame) : State := {st with envs := envs}

def stOutput (st : State) (s : String) : State :=
  {st with output := st.output ++ [s]}

/-- Allocate a fresh environment frame, returning its stable index. -/
def allocEnv (st : State) (fr : Frame) : Nat × State :=
  (st.envs.length, {st with envs := st.envs ++ [fr]})

/-- Allocate a fresh instance, returning its stable index. -/
def allocInst (st : State) (d : InstData) : Nat × State :=
  (st.insts.length, {st with insts := st.insts ++ [d]})

/--
function.rs: bind.  A new environment enclosing the original closure is
created with this pre-defined to the instance, and a new Function value with
that closure is returned.  The native arm is unreachable in the source.
-/
def bindFunction (st : State) (f : Function) (inst : LoxType) :
    Function × State :=
  match f with
  | .user nm params body closure is_init =>
    let r := allocEnv st ⟨[("this", inst)], some closure⟩
    (.user nm params body r.1 is_init, r.2)
  | .native a => (.native a, st)

/--
interpreter.rs: lookup_variable on the interpreter state: a recorded
hop-distance is used through get_at from the current environment, otherwise
the name is looked up dynamically in the globals.
-/
def State.lookupVariable (st : State) (name : Token) : Outcome LoxType :=
  let opt_value : Except String (Option LoxType) :=
    match localsGet st.locals name with
    | some distance => envGetAt st.envs st.cur distance name.lexeme
    | none => .ok (envGet st.envs st.globals name.lexeme)
  match opt_value with
  | .error m => .panics m
  | .ok (some v) => .ok v
  | .ok none => .err (some name) (undefinedVarError name.lexeme)

/-- class.rs: LoxInstance::get; fields shadow methods, a found method is bound
to the instance, otherwise the undefined-property runtime error. -/
def instanceGet (st : State) (idx : Nat) (name : Token) (instv : LoxType) :
    Outcome LoxType × State :=
  match st.insts[idx]? with
  | none => (.panics "invalid instance reference", st)
  | some d =>
    match listGet d.fields name.lexeme with
    | some field => (.ok field, st)
    | none =>
      match d.cls.find_method name.lexeme with
      | some m =>
        let r := bindFunction st m instv
        (.ok (.callable r.1), r.2)
      | none =>
        (.err (some name)
          ("Undefined property " ++ sq ++ name.lexeme ++ sq ++ "."), st)

/-- class.rs: LoxInstance::set, always inserts or overwrites a field. -/
def instSet (st : State) (idx : Nat) (name : String) (v : LoxType) : State :=
  match st.insts[idx]? with
  | none => st
  | some d => {st with insts := st.insts.set idx ⟨d.cls, listInsert d.fields name v⟩}

def arityMsg (expected got : Nat) : String :=
  "Expected " ++ toString expected ++ " arguments but got " ++ toString got ++ "."

/-- interpreter.rs: check_number_operands. -/
def check_number_operands (token : Token) (left right : LoxType) :
    Except (Option Token × String) (F64 × F64) :=
  match left, right with
  | .number n, .number m => .ok (n, m)
  | _, _ => .error (some token, "Operands must be numbers.")

/-- The Binary arm of interpreter.rs evaluate, after both operands have been
evaluated; arithmetic and comparison arms require numbers, plus also accepts
two strings, equality never fails. -/
def binaryOp (operator : Token) (left_value right_value : LoxType) :
    Outcome LoxType :=
  match operator.token_type with
  | .minus =>
    match check_number_operands operator left_value right_value with
    | .ok (n, m) => .ok (.number (f64Sub n m))
    | .error (t, msg) => .err t msg
  | .plus =>
    match left_value, right_value with
    | .number n, .number m => .ok (.number (f64Add n m))
    | .string n, .string m => .ok (.string (n ++ m))
    | _, _ => .err (some operator) "Operands must be two numbers or two strings."
  | .slash =>
    match check_number_operands operator left_value right_value with
    | .ok (n, m) => .ok (.number (f64Div n m))
    | .error (t, msg) => .err t msg
  | .star =>
    match check_number_operands operator left_value right_value with
    | .ok (n, m) => .ok (.number (f64Mul n m))
    | .error (t, msg) => .err t msg
  | .greater =>
    match check_number_operands operator left_value right_value with
    | .ok (n, m) => .ok (.boolean (f64Gt n m))
    | .error (t, msg) => .err t msg
  | .greaterEqual =>
    match check_number_operands operator left_value right_value with
    | .ok (n, m) => .ok (.boolean (f64Ge n m))
    | .error (t, msg) => .err t msg
  | .less =>
    match check_number_operands operator left_value right_value with
    | .ok (n, m) => .ok (.boolean (f64Lt n m))
    | .error (t, msg) => .err t msg
  | .lessEqual =>
    match check_number_operands operator left_value right_value with
    | .ok (n, m) => .ok (.boolean (f64Le n m))
    | .error (t, msg) => .err t msg
  | .bangEqual => .ok (.boolean (!(loxEq left_value right_value)))
  | .equalEqual => .ok (.boolean (loxEq left_value right_value))
  | _ => .panics "unreachable binary operator"

/-- function.rs: the initializer result, looked up at hop-distance zero in the
closure; the None branch of the source is dead because get_at panics instead
of returning None, but it is modelled as written. -/
def initializerThis (st : State) (closure : Nat) : Outcome LoxType :=
  match envGetAt st.envs closure 0 "this" with
  | .error m => .panics m
  | .ok (some v) => .ok v
  | .ok none => .err none "expect initializer to return this"

/-- The parameter-binding loop of function.rs call: define each parameter to
the corresponding argument in a fresh map. -/
def zipDefineAux : List Token → List LoxType → List (String × LoxType) →
    List (String × LoxType)
  | p :: ps, a :: rest, acc => zipDefineAux ps rest (listInsert acc p.lexeme a)
  | _, _, acc => acc

def zipDefine (params : List Token) (arguments : List LoxType) :
    List (String × LoxType) :=
  zipDefineAux params arguments []

/-- interpreter.rs: the method-table construction of the Class statement.
The source computes is_initializer as name.lexeme == "init" where name is the
binding of the class token (the method token is rebound to function_name), so
the flag compares the CLASS name against "init"; this is modelled exactly as
written.  Statements that are not functions are unreachable via the parser. -/
def buildMethods : List Stmt → String → Nat → List (String × Function) →
    List (String × Function)
  | [], _, _, acc => acc
  | (.function fn params body) :: rest, class_name, closure, acc =>
    buildMethods rest class_name closure
      (listInsert acc fn.lexeme (.user fn params body closure (class_name == "init")))
  | _ :: rest, class_name, closure, acc => buildMethods rest class_name closure acc

/--
Modelled from the spec: evaluation of a super expression is absent from
src/src/interpreter.rs (that file predates inheritance support, while ast.rs,
resolver.rs and class.rs already carry it).  Spec section 4.4: the method is
resolved starting one level above the class that statically defines the
currently executing method, found via the synthetic super binding established
by the resolver at the recorded hop-distance; the runtime this lives one
scope closer; the resulting Function is bound to that runtime instance; a
missing method is the undefined-property runtime error.
-/
def evalSuper (st : State) (keyword method : Token) : Outcome LoxType × State :=
  match localsGet st.locals keyword with
  | none => (.panics "unresolved super", st)
  | some distance =>
    match envGetAt st.envs st.cur distance "super" with
    | .error m => (.panics m, st)
    | .ok none => (.panics "unresolved super", st)
    | .ok (some sv) =>
      match sv with
      | .classV superclass =>
        match envGetAt st.envs st.cur (distance - 1) "this" with
        | .error m => (.panics m, st)
        | .ok none => (.panics "unresolved this", st)
        | .ok (some object) =>
          match superclass.find_method method.lexeme with
          | none =>
            (.err (some method)
              ("Undefined property " ++ sq ++ method.lexeme ++ sq ++ "."), st)
          | some m =>
            let r := bindFunction st m object
            (.ok (.callable r.1), r.2)
      | _ => (.panics "super is not a class", st)

/-- Display of runtime values (lox_type.rs, function.rs, class.rs Display
impls), used by the print statement; the numeric formatting of Rust is
approximated, no claim depends on it. -/
def numDisplay : F64 → String
  | .nan => "NaN"
  | .inf true => "-inf"
  | .inf false => "inf"
  | .negZero => "-0"
  | .val q => toString q

def loxDisplay (st : State) : LoxType → String
  | .boolean b => toString b
  | .number n => numDisplay n
  | .string s => s
  | .nil => "nil"
  | .callable (.native _) => "<native func>"
  | .callable (.user nm _ _ _ _) => "<fn " ++ nm.lexeme ++ ">"
  | .classV c => "<class " ++ c.name ++ ">"
  | .instanceV i =>
    "<instance " ++ (match st.insts[i]? with
      | some d => d.cls.name
      | none => "") ++ ">"

/-
interpreter.rs: the recursive evaluator.  Every gate function matches on the
fuel, so recursion depth is bounded by the fuel; the list walkers recurse
structurally on their list at unchanged fuel.
-/
mutual

/-- interpreter.rs: execute. -/
def execute : Nat → Stmt → State → Outcome Unit × State
  | 0, _, st => (.fuelOut, st)
  | fuel+1, stmt, st =>
    match stmt with
    | .block stmts =>
      let r := allocEnv st ⟨[], some st.cur⟩
      execute_block fuel stmts r.1 r.2
    | .classDecl name methods opt_superclass =>
      let st1 := setEnvs st (envDefine st.envs st.cur name.lexeme .nil)
      match opt_superclass with
      | none =>
        let cms := buildMethods methods name.lexeme st1.cur []
        let cls := LoxClass.mk name.lexeme cms none
        let r := envAssign st1.envs st1.cur name.lexeme (.classV cls)
        (.ok (), setEnvs st1 r.2)
      | some scExpr =>
        -- Modelled from the spec: the superclass half of class execution is
        -- absent from src/src/interpreter.rs.  Spec sections 3 and 4.4: the
        -- superclass expression is evaluated and must be a class; a synthetic
        -- scope binding super to it encloses the method closures; the
        -- superclass link is stored in the class, resolved once here.
        andThen (evaluate fuel scExpr st1) (fun scv st2 =>
          match scv with
          | .classV sc =>
            let r := allocEnv st2 ⟨[("super", .classV sc)], some st2.cur⟩
            let cms := buildMethods methods name.lexeme r.1 []
            let cls := LoxClass.mk name.lexeme cms (some sc)
            let r2 := envAssign r.2.envs r.2.cur name.lexeme (.classV cls)
            (.ok (), setEnvs r.2 r2.2)
          | _ => (.err (some name) "Superclass must be a class.", st2))
    | .expression e =>
      andThen (evaluate fuel e st) (fun _ s => (.ok (), s))
    | .function name params body =>
      let f := LoxType.callable (.user name params body st.cur false)
      (.ok (), setEnvs st (envDefine st.envs st.cur name.lexeme f))
    | .ifStmt condition then_branch opt_else_branch =>
      andThen (evaluate fuel condition st) (fun v s =>
        if truthy v then execute fuel then_branch s
        else
          match opt_else_branch with
          | some else_branch => execute fuel else_branch s
          | none => (.ok (), s))
    | .print e =>
      andThen (evaluate fuel e st) (fun v s => (.ok (), stOutput s (loxDisplay s v)))
    | .returnStmt _ value =>
      match value with
      | .literal .nil => (.ret .nil, st)
      | _ => andThen (evaluate fuel value st) (fun v s => (.ret v, s))
    | .var name initializer =>
      andThen (evaluate fuel initializer st) (fun v s =>
        (.ok (), setEnvs s (envDefine s.envs s.cur name.lexeme v)))
    | .whileStmt condition body =>
      andThen (evaluate fuel condition st) (fun v s =>
        if truthy v then
          andThen (execute fuel body s) (fun _ s2 =>
            execute fuel (Stmt.whileStmt condition body) s2)
        else (.ok (), s))

/-- interpreter.rs: execute_block.  The prior current environment is saved,
the statements run with the given environment as current, and the prior one
is restored around whatever result the body produced. -/
def execute_block : Nat → List Stmt → Nat → State → Outcome Unit × State
  | 0, _, _, st => (.fuelOut, st)
  | fuel+1, stmts, envRef, st =>
    let previous := st.cur
    let r := execStmts fuel stmts {st with cur := envRef}
    (r.1, {r.2 with cur := previous})

/-- The statement loop inside execute_block. -/
def execStmts : Nat → List Stmt → State → Outcome Unit × State
  | 0, _, st => (.fuelOut, st)
  | _+1, [], st => (.ok (), st)
  | fuel+1, stmt :: rest, st =>
    andThen (execute fuel stmt st) (fun _ s => execStmts fuel rest s)

/-- interpreter.rs: evaluate. -/
def evaluate : Nat → Expr → State → Outcome LoxType × State
  | 0, _, st => (.fuelOut, st)
  | fuel+1, expr, st =>
    match expr with
    | .assign name value =>
      andThen (evaluate fuel value st) (fun v s =>
        match localsGet s.locals name with
        | some distance =>
          match envAssignAt s.envs s.cur distance name.lexeme v with
          | .error m => (.panics m, s)
          | .ok (success, envs2) =>
            if success then (.ok v, setEnvs s envs2)
            else (.err (some name) (undefinedVarError name.lexeme), setEnvs s envs2)
        | none =>
          let r := envAssign s.envs s.cur name.lexeme v
          if r.1 then (.ok v, setEnvs s r.2)
          else (.err (some name) (undefinedVarError name.lexeme), setEnvs s r.2))
    | .binary left operator right =>
      andThen (evaluate fuel left st) (fun lv s1 =>
        andThen (evaluate fuel right s1) (fun rv s2 =>
          (binaryOp operator lv rv, s2)))
    | .call callee paren arguments =>
      andThen (evaluate fuel callee st) (fun cv s1 =>
        andThen (evalArgs fuel arguments s1) (fun argvals s2 =>
          match cv with
          | .callable f =>
            if argvals.length == f.arity then callFunction fuel f argvals s2
            else (.err (some paren) (arityMsg f.arity argvals.length), s2)
          | .classV c => instantiateClass fuel c argvals paren s2
          | _ => (.err (some paren) "Can only call functions and classes.", s2)))
    | .get object name =>
      andThen (evaluate fuel object st) (fun ov s1 =>
        match ov with
        | .instanceV i => instanceGet s1 i name ov
        | _ => (.err (some name) "Only instances have properties.", s1))
    | .grouping g => evaluate fuel g st
    | .literal v => (.ok (litToLox v), st)
    | .logical left operator right =>
      andThen (evaluate fuel left st) (fun lv s1 =>
        let is_left_truthy := truthy lv
        if operator.token_type == .orKw then
          (if is_left_truthy then (.ok lv, s1) else evaluate fuel right s1)
        else
          (if !is_left_truthy then (.ok lv, s1) else evaluate fuel right s1))
    | .set object name value =>
      andThen (evaluate fuel object st) (fun ov s1 =>
        match ov with
        | .instanceV i =>
          andThen (evaluate fuel value s1) (fun v s2 =>
            (.ok v, instSet s2 i name.lexeme v))
        | _ => (.err (some name) "Only instances have fields.", s1))
    | .superE keyword method => evalSuper st keyword method
    | .this keyword => (st.lookupVariable keyword, st)
    | .unary operator right =>
      andThen (evaluate fuel right st) (fun rv s1 =>
        match operator.token_type with
        | .bang => (.ok (.boolean (!(truthy rv))), s1)
        | .minus =>
          match rv with
          | .number n => (.ok (.number (f64Neg n)), s1)
          | _ => (.err (some operator) "Operand must be a number.", s1)
        | _ => (.panics "unreachable unary operator", s1))
    | .variableE name => (st.lookupVariable name, st)

/-- The argument loop of the Call arm: left to right. -/
def evalArgs : Nat → List Expr → State → Outcome (List LoxType) × State
  | 0, _, st => (.fuelOut, st)
  | _+1, [], st => (.ok [], st)
  | fuel+1, a :: rest, st =>
    andThen (evaluate fuel a st) (fun v s1 =>
      andThen (evalArgs fuel rest s1) (fun vs s2 => (.ok (v :: vs), s2)))

/--
function.rs: call.  Native functions run their host body directly; the only
native is clock, whose body reads the system time, modelled as an unspecified
number (no claim depends on it).  A user function runs its body as a block in
a fresh environment enclosing the captured closure with the parameters bound;
normal fall-through yields Nil and an explicit Return yields its value, in
both cases substituted by the bound this at hop-distance zero in the closure
when is_initializer is set.
-/
def callFunction : Nat → Function → List LoxType → State → Outcome LoxType × State
  | 0, _, _, st => (.fuelOut, st)
  | fuel+1, f, arguments, st =>
    match f with
    | .native _ => (.ok (.number (.val 0)), st)
    | .user _ params body closure is_initializer =>
      let r := allocEnv st ⟨zipDefine params arguments, some closure⟩
      let res := execute_block fuel body r.1 r.2
      match res.1 with
      | .ok _ =>
        if is_initializer then (initializerThis res.2 closure, res.2)
        else (.ok .nil, res.2)
      | .ret value =>
        if is_initializer then (initializerThis res.2 closure, res.2)
        else (.ok value, res.2)
      | .err t m => (.err t m, res.2)
      | .panics m => (.panics m, res.2)
      | .fuelOut => (.fuelOut, res.2)

/--
interpreter.rs: the Class case of the Call arm (lines 325 to 347): a fresh
instance with an empty field table and a reference to the class is created;
when find_method resolves init, its arity is checked exactly (the mismatch
runtime error naming expected and actual counts), it is bound to the new
instance and called immediately with the arguments, its result discarded; the
call yields the instance.
-/
def instantiateClass : Nat → LoxClass → List LoxType → Token → State →
    Outcome LoxType × State
  | 0, _, _, _, st => (.fuelOut, st)
  | fuel+1, class_, arguments_values, paren, st =>
    let r := allocInst st ⟨class_, []⟩
    let instance_type := LoxType.instanceV r.1
    match class_.find_method "init" with
    | some initializer =>
      if arguments_values.length == initializer.arity then
        let b := bindFunction r.2 initializer instance_type
        andThen (callFunction fuel b.1 arguments_values b.2)
          (fun _ s => (.ok instance_type, s))
      else
        (.err (some paren) (arityMsg initializer.arity arguments_values.length), r.2)
    | none => (.ok instance_type, r.2)

end

/-- interpreter.rs: interpret, stopping at the first non-ok outcome. -/
def interpret (fuel : Nat) : List Stmt → State → Outcome Unit × State
  | [], st => (.ok (), st)
  | stmt :: rest, st =>
    match execute fuel stmt st with
    | (.ok _, s) => interpret fuel rest s
    | r => r

/- resolver.rs: the static scope-resolution pass. -/

/-- resolver.rs: FunctionType. -/
inductive FunctionType where
  | function
  | initializer
  | method
  | noneF
deriving DecidableEq

/-- resolver.rs: ClassType. -/
inductive ClassType where
  | classC
  | noneC
  | subClass
deriving DecidableEq

/--
resolver.rs: Resolver state.  The scope stack is stored innermost scope
first (the Rust Vec keeps the innermost last; iter().rev().enumerate() of the
source is plain enumeration here).  Static errors reported through the lox
error sink are collected as messages; the locals table is the hop-distance
table the resolver records into the interpreter.
-/
structure RState where
  scopes : List (List (String × Bool))
  current_function : FunctionType
  current_class : ClassType
  locals : List (Token × Nat)
  errors : List String

def addError (rs : RState) (msg : String) : RState :=
  {rs with errors := rs.errors ++ [msg]}

def rBeginScope (rs : RState) : RState := {rs with scopes := [] :: rs.scopes}

def rEndScope (rs : RState) : RState := {rs with scopes := rs.scopes.tail}

/-- resolver.rs: declare; a no-op at global scope, a duplicate is a static
error, the name is marked not-yet-defined. -/
def rDeclare (rs : RState) (name : Token) : RState :=
  match rs.scopes with
  | [] => rs
  | scope :: rest =>
    let rs1 :=
      if listContainsKey scope name.lexeme then
        addError rs "Already a variable with this name in this scope."
      else rs
    {rs1 with scopes := listInsert scope name.lexeme false :: rest}

/-- resolver.rs: define; marks the name defined in the innermost scope. -/
def rDefine (rs : RState) (name : Token) : RState :=
  match rs.scopes with
  | [] => rs
  | scope :: rest => {rs with scopes := listInsert scope name.lexeme true :: rest}

/-- Insert into the innermost scope (the scopes.last_mut() insert of the
class arm). -/
def scopeInsertTop (rs : RState) (name : String) (b : Bool) : RState :=
  match rs.scopes with
  | [] => rs
  | scope :: rest => {rs with scopes := listInsert scope name b :: rest}

/-- The scan of resolve_local: innermost to outermost, counting hops. -/
def findScopeIndex : List (List (String × Bool)) → String → Option Nat
  | [], _ => none
  | scope :: rest, name =>
    if listContainsKey scope name then some 0
    else (findScopeIndex rest name).map (· + 1)

/-- resolver.rs: resolve_local; records (token, hops) when a scope declares
the name, otherwise leaves the reference dynamic (global). -/
def resolve_local (rs : RState) (name : Token) : RState :=
  match findScopeIndex rs.scopes name.lexeme with
  | some index => {rs with locals := localsInsert rs.locals name index}
  | none => rs

def msgSelfInherit : String :=
  "A class can" ++ sq ++ "t inherit from itself."

def msgReturnTopLevel : String :=
  "Can" ++ sq ++ "t return from top-level code."

def msgReturnInInit : String :=
  "Can" ++ sq ++ "t return a value from an initializer."

def msgSelfInitializer : String :=
  "Can" ++ sq ++ "t read local variable in its own initializer."

def msgSuperOutsideClass : String :=
  "Can" ++ sq ++ "t use " ++ sq ++ "super" ++ sq ++ " outside of a class."

def msgSuperNoSuperclass : String :=
  "Can" ++ sq ++ "t use " ++ sq ++ "super" ++ sq ++ " in a class with no superclass."

def msgThisOutsideClass : String :=
  "Can" ++ sq ++ "t use " ++ sq ++ "this" ++ sq ++ " outside of a class."

mutual

/-- resolver.rs: resolve (the statement loop).  The pass is structurally
recursive over the tree in the source; a fuel argument makes the model
kernel-computable, decremented at every recursive call. -/
def resolve_stmts : Nat → List Stmt → RState → RState
  | 0, _, rs => rs
  | _+1, [], rs => rs
  | fuel+1, stmt :: rest, rs => resolve_stmts fuel rest (resolve_statement fuel stmt rs)

/-- resolver.rs: resolve_statement. -/
def resolve_statement : Nat → Stmt → RState → RState
  | 0, _, rs => rs
  | fuel+1, stmt, rs =>
    match stmt with
    | .block stmts => rEndScope (resolve_stmts fuel stmts (rBeginScope rs))
    | .classDecl name methods opt_superclass =>
      let enclosing_class := rs.current_class
      let rs1 := {rs with current_class := ClassType.classC}
      let rs2 := rDefine (rDeclare rs1 name) name
      let rs3 :=
        match opt_superclass with
        | some (.variableE superclass_name) =>
          let a :=
            if name.lexeme == superclass_name.lexeme then addError rs2 msgSelfInherit
            else rs2
          let b := {a with current_class := ClassType.subClass}
          let c := resolve_local b superclass_name
          scopeInsertTop (rBeginScope c) "super" true
        | _ => rs2
      let rs4 := scopeInsertTop (rBeginScope rs3) "this" true
      let rs5 := resolve_methods fuel methods rs4
      let rs6 := rEndScope rs5
      let rs7 := if opt_superclass.isSome then rEndScope rs6 else rs6
      {rs7 with current_class := enclosing_class}
    | .expression e => resolve_expression fuel e rs
    | .function name params body =>
      resolve_function fuel params body FunctionType.function
        (rDefine (rDeclare rs name) name)
    | .ifStmt condition then_branch opt_else_branch =>
      let rs1 := resolve_statement fuel then_branch (resolve_expression fuel condition rs)
      match opt_else_branch with
      | some else_branch => resolve_statement fuel else_branch rs1
      | none => rs1
    | .print e => resolve_expression fuel e rs
    | .returnStmt _ value =>
      let rs1 :=
        if rs.current_function == FunctionType.noneF then addError rs msgReturnTopLevel
        else rs
      if !value.is_nil then
        let rs2 :=
          if rs1.current_function == FunctionType.initializer then
            addError rs1 msgReturnInInit
          else rs1
        resolve_expression fuel value rs2
      else rs1
    | .var name initializer =>
      let rs1 := rDeclare rs name
      let rs2 :=
        if !initializer.is_nil then resolve_expression fuel initializer rs1 else rs1
      rDefine rs2 name
    | .whileStmt condition body =>
      resolve_statement fuel body (resolve_expression fuel condition rs)

/-- The method loop of the Class arm: the function kind is Initializer
exactly when the METHOD name is init (contrast with interpreter.rs, which
compares the class name). -/
def resolve_methods : Nat → List Stmt → RState → RState
  | 0, _, rs => rs
  | _+1, [], rs => rs
  | fuel+1, m :: rest, rs =>
    match m with
    | .function fname params body =>
      let declaration :=
        if fname.lexeme == "init" then FunctionType.initializer
        else FunctionType.method
      resolve_methods fuel rest (resolve_function fuel params body declaration rs)
    | _ => resolve_methods fuel rest rs

/-- resolver.rs: resolve_expression. -/
def resolve_expression : Nat → Expr → RState → RState
  | 0, _, rs => rs
  | fuel+1, expr, rs =>
    match expr with
    | .assign name value => resolve_local (resolve_expression fuel value rs) name
    | .binary left _ right =>
      resolve_expression fuel right (resolve_expression fuel left rs)
    | .call callee _ arguments =>
      resolve_exprs fuel arguments (resolve_expression fuel callee rs)
    | .get object _ => resolve_expression fuel object rs
    | .grouping g => resolve_expression fuel g rs
    | .literal _ => rs
    | .logical left _ right =>
      resolve_expression fuel right (resolve_expression fuel left rs)
    | .set object _ value =>
      resolve_expression fuel object (resolve_expression fuel value rs)
    | .superE keyword _ =>
      let rs1 :=
        match rs.current_class with
        | .noneC => addError rs msgSuperOutsideClass
        | .classC => addError rs msgSuperNoSuperclass
        | .subClass => rs
      resolve_local rs1 keyword
    | .this keyword =>
      match rs.current_class with
      | .noneC => addError rs msgThisOutsideClass
      | _ => resolve_local rs keyword
    | .unary _ right => resolve_expression fuel right rs
    | .variableE name =>
      let rs1 :=
        match rs.scopes with
        | scope :: _ =>
          match listGet scope name.lexeme with
          | some false => addError rs msgSelfInitializer
          | _ => rs
        | [] => rs
      resolve_local rs1 name

/-- The argument loop of the Call arm. -/
def resolve_exprs : Nat → List Expr → RState → RState
  | 0, _, rs => rs
  | _+1, [], rs => rs
  | fuel+1, e :: rest, rs => resolve_exprs fuel rest (resolve_expression fuel e rs)

/-- resolver.rs: resolve_function; pushes a scope with the parameters, swaps
the function-kind context, and restores both on exit. -/
def resolve_function : Nat → List Token → List Stmt → FunctionType → RState → RState
  | 0, _, _, _, rs => rs
  | fuel+1, params, body, function_type, rs =>
    let enclosing_function := rs.current_function
    let rs1 := {rs with current_function := function_type}
    let rs2 := params.foldl (fun r p => rDefine (rDeclare r p) p) (rBeginScope rs1)
    let rs3 := rEndScope (resolve_stmts fuel body rs2)
    {rs3 with current_function := enclosing_function}

end

/- lox.rs: the run pipeline, from resolved statements to execution. -/

/-- interpreter.rs: Interpreter::new, the globals with the native clock. -/
def initialState : State :=
  ⟨[⟨[("clock", LoxType.callable (Function.native 0))], none⟩], [], 0, 0, [], []⟩

def initialRState : RState := ⟨[], .noneF, .noneC, [], []⟩

def runFuel : Nat := 199

def resolveProgram (stmts : List Stmt) : RState :=
  resolve_stmts runFuel stmts initialRState

/--
lox.rs: run.  The resolver pass runs first and records the hop-distance
table into the interpreter; a static error skips execution entirely.
-/
def runProg (stmts : List Stmt) : Outcome Unit × State :=
  let rs := resolveProgram stmts
  if rs.errors.isEmpty then
    interpret runFuel stmts {initialState with locals := rs.locals}
  else (.ok (), initialState)

/- Token builders for the concrete example programs. -/

def identTok (s : String) (line : Nat) : Token := ⟨.identifier, s, none, line⟩

def parenTok (line : Nat) : Token := ⟨.rightParen, ")", none, line⟩

def plusTok (line : Nat) : Token := ⟨.plus, "+", none, line⟩

def superTok (line : Nat) : Token := ⟨.superKw, "super", none, line⟩

def thisTok (line : Nat) : Token := ⟨.thisKw, "this", none, line⟩

def returnTok (line : Nat) : Token := ⟨.returnKw, "return", none, line⟩

/--
The inheritance example of the spec:
line 1  class A { greet() { return "A"; } }
line 2  class B < A { greet() { return super.greet() + "B"; } }
line 3  var result = B().greet();
-/
def progAB : List Stmt := [
  .classDecl (identTok "A" 1)
    [.function (identTok "greet" 1) []
      [.returnStmt (returnTok 1) (.literal (.string "A"))]]
    none,
  .classDecl (identTok "B" 2)
    [.function (identTok "greet" 2) []
      [.returnStmt (returnTok 2)
        (.binary
          (.call (.superE (superTok 2) (identTok "greet" 2)) (parenTok 2) [])
          (plusTok 2)
          (.literal (.string "B")))]]
    (some (.variableE (identTok "A" 2))),
  .var (identTok "result" 3)
    (.call
      (.get (.call (.variableE (identTok "B" 3)) (parenTok 3) [])
        (identTok "greet" 3))
      (parenTok 3) [])
]

/--
A second inheritance example in which the super-resolved method observes the
state of the most-derived runtime instance:
line 1  class A { who() { return this.tag; } }
line 2  class B < A { who() { return super.who() + "!"; } }
line 3  var b = B();
line 4  b.tag = "B-instance";
line 5  var result2 = b.who();
-/
def progThis : List Stmt := [
  .classDecl (identTok "A" 1)
    [.function (identTok "who" 1) []
      [.returnStmt (returnTok 1) (.get (.this (thisTok 1)) (identTok "tag" 1))]]
    none,
  .classDecl (identTok "B" 2)
    [.function (identTok "who" 2) []
      [.returnStmt (returnTok 2)
        (.binary
          (.call (.superE (superTok 2) (identTok "who" 2)) (parenTok 2) [])
          (plusTok 2)
          (.literal (.string "!")))]]
    (some (.variableE (identTok "A" 2))),
  .var (identTok "b" 3) (.call (.variableE (identTok "B" 3)) (parenTok 3) []),
  .expression (.set (.variableE (identTok "b" 4)) (identTok "tag" 4)
    (.literal (.string "B-instance"))),
  .var (identTok "result2" 5)
    (.call (.get (.variableE (identTok "b" 5)) (identTok "who" 5)) (parenTok 5) [])
]

/--
A class not named init with a method named init:
line 1  class Foo { init(x) { this.x = x; } }
-/
def progInitFlag : List Stmt := [
  .classDecl (identTok "Foo" 1)
    [.function (identTok "init" 1) [identTok "x" 1]
      [.expression (.set (.this (thisTok 1)) (identTok "x" 1)
        (.variableE (identTok "x" 1)))]]
    none
]

/-- A class named init with an ordinary method foo. -/
def progClassNamedInit : List Stmt := [
  .classDecl (identTok "init" 1)
    [.function (identTok "foo" 1) [] [.expression (.literal .nil)]]
    none
]

/-- As progInitFlag but the initializer ends in return 1, which the resolver
must reject statically. -/
def progInitFlagRet : List Stmt := [
  .classDecl (identTok "Foo" 1)
    [.function (identTok "init" 1) []
      [.returnStmt (returnTok 1) (.literal (.number (.val 1)))]]
    none
]

/--
The initializer contract example of the spec:
line 1  class C { init(x) { this.x = x; } }
line 2  var i = C(5);
-/
def progC : List Stmt := [
  .classDecl (identTok "C" 1)
    [.function (identTok "init" 1) [identTok "x" 1]
      [.expression (.set (.this (thisTok 1)) (identTok "x" 1)
        (.variableE (identTok "x" 1)))]]
    none,
  .var (identTok "i" 2)
    (.call (.variableE (identTok "C" 2)) (parenTok 2)
      [.literal (.number (.val 5))])
]

/-- As progC but the initializer body ends in a bare return. -/
def progCRet : List Stmt := [
  .classDecl (identTok "C" 1)
    [.function (identTok "init" 1) [identTok "x" 1]
      [.expression (.set (.this (thisTok 1)) (identTok "x" 1)
        (.variableE (identTok "x" 1))),
       .returnStmt (returnTok 1) (.literal .nil)]]
    none,
  .var (identTok "i" 2)
    (.call (.variableE (identTok "C" 2)) (parenTok 2)
      [.literal (.number (.val 5))])
]

/-- As progC but called with two arguments: C(5, 6). -/
def progCArity : List Stmt := [
  .classDecl (identTok "C" 1)
    [.function (identTok "init" 1) [identTok "x" 1]
      [.expression (.set (.this (thisTok 1)) (identTok "x" 1)
        (.variableE (identTok "x" 1)))]]
    none,
  .var (identTok "i" 2)
    (.call (.variableE (identTok "C" 2)) (parenTok 2)
      [.literal (.number (.val 5)), .literal (.number (.val 6))])
]

/--
A class without init called with two side-effecting arguments:
line 1  var s = "";
line 2  class D {}
line 3  var i = D(s = s + "a", s = s + "b");
-/
def progD : List Stmt := [
  .var (identTok "s" 1) (.literal (.string "")),
  .classDecl (identTok "D" 2) [] none,
  .var (identTok "i" 3)
    (.call (.variableE (identTok "D" 3)) (parenTok 3)
      [.assign (identTok "s" 3)
        (.binary (.variableE (identTok "s" 3)) (plusTok 3) (.literal (.string "a"))),
       .assign (identTok "s" 3)
        (.binary (.variableE (identTok "s" 3)) (plusTok 3) (.literal (.string "b")))])
]

/-- Reads the is_initializer flag of a method of a class bound in the
globals of a final state. -/
def classMethodIsInit (st : State) (cls method : String) : Option Bool :=
  match envGet st.envs 0 cls with
  | some (.classV c) =>
    match c.find_method method with
    | some (.user _ _ _ _ b) => some b
    | _ => none
  | _ => none

/-- The field table of an instance of a final state. -/
def instFields (st : State) (idx : Nat) : Option (List (String × LoxType)) :=
  st.insts[idx]?.map InstData.fields

/-- The class name of an instance of a final state. -/
def instClassName (st : State) (idx : Nat) : Option String :=
  (st.insts[idx]?).map (fun d => d.cls.name)

/-
General lemmas about the Environment value model, shared by the theorems
below.
-/

theorem ancestorGo_of_specWalk :
    ∀ (steps : Nat) (p : Environment) (i : Nat) (a : Environment),
      specWalk p steps = some a → ancestorGo p i steps = .ok a
  | 0, p, i, a, h => by
    simp [specWalk] at h
    simp [ancestorGo, h]
  | steps+1, .mk vs none, i, a, h => by
    simp [specWalk] at h
  | steps+1, .mk vs (some q), i, a, h => by
    simp [specWalk] at h
    simpa [ancestorGo, Environment.enclosing] using
      ancestorGo_of_specWalk steps q (i+1) a h

theorem ancestor_of_specWalk (env : Environment) (d : Nat) (a : Environment)
    (h : specWalk env (d+1) = some a) : Environment.ancestor env (d+1) = .ok a := by
  match env with
  | .mk vs none => simp [specWalk] at h
  | .mk vs (some p) =>
    simp [specWalk] at h
    simpa [Environment.ancestor, Environment.enclosing] using
      ancestorGo_of_specWalk d p 1 a h

/-- get_at consults exactly the scope reached by following distance links:
the found value when the name is present, the expect panic referencing the
name when absent. -/
theorem get_at_spec (env : Environment) (d : Nat) (name : String)
    (a : Environment) (h : specWalk env d = some a) :
    Environment.get_at env d name =
      (match listGet a.values name with
       | none => .error (undefinedVarPanic name)
       | some v => .ok (some v)) := by
  match d with
  | 0 =>
    simp [specWalk] at h
    subst h
    simp [Environment.get_at]
  | d+1 =>
    have ha := ancestor_of_specWalk env d a h
    simp [Environment.get_at, ha]

/-- assign succeeds exactly when get finds the name somewhere on the chain. -/
theorem assign_fst_eq :
    ∀ (env : Environment) (name : String) (v : LoxType),
      (Environment.assign env name v).1 = (Environment.get env name).isSome
  | .mk vs none, name, v => by
    cases hg : listGet vs name with
    | none => simp [Environment.assign, Environment.get, listContainsKey, hg]
    | some w => simp [Environment.assign, Environment.get, listContainsKey, hg]
  | .mk vs (some e), name, v => by
    cases hg : listGet vs name with
    | none =>
      simpa [Environment.assign, Environment.get, listContainsKey, hg] using
        assign_fst_eq e name v
    | some w => simp [Environment.assign, Environment.get, listContainsKey, hg]

/-- A failed assign leaves the chain unchanged. -/
theorem assign_snd_of_not_found :
    ∀ (env : Environment) (name : String) (v : LoxType),
      Environment.get env name = none → (Environment.assign env name v).2 = env
  | .mk vs none, name, v, h => by
    cases hg : listGet vs name with
    | none => simp [Environment.assign, listContainsKey, hg]
    | some w => simp [Environment.get, hg] at h
  | .mk vs (some e), name, v, h => by
    cases hg : listGet vs name with
    | none =>
      simp [Environment.get, hg] at h
      simp [Environment.assign, listContainsKey, hg,
        assign_snd_of_not_found e name v h]
    | some w => simp [Environment.get, hg] at h

/-- A successful assign updates exactly the first scope searching outward
that contains the name, leaving every other scope map unchanged. -/
theorem assign_chainMaps :
    ∀ (env : Environment) (name : String) (v : LoxType) (k : Nat),
      firstHop env name = some k →
      ∃ vs, (chainMaps env)[k]? = some vs ∧
        chainMaps (Environment.assign env name v).2 =
          (chainMaps env).set k (listInsert vs name v)
  | .mk vs none, name, v, k, h => by
    cases hg : listGet vs name with
    | none => simp [firstHop, listContainsKey, hg] at h
    | some w =>
      simp [firstHop, listContainsKey, hg] at h
      subst h
      exact ⟨vs, by simp [chainMaps], by
        simp [Environment.assign, listContainsKey, hg, Environment.define, chainMaps]⟩
  | .mk vs (some e), name, v, k, h => by
    cases hg : listGet vs name with
    | some w =>
      simp [firstHop, listContainsKey, hg] at h
      subst h
      exact ⟨vs, by simp [chainMaps], by
        simp [Environment.assign, listContainsKey, hg, Environment.define, chainMaps]⟩
    | none =>
      simp [firstHop, listContainsKey, hg] at h
      obtain ⟨k2, hk2, rfl⟩ := h
      obtain ⟨vs2, hvs2, hmaps⟩ := assign_chainMaps e name v k2 hk2
      refine ⟨vs2, by simpa [chainMaps] using hvs2, ?_⟩
      simp [Environment.assign, listContainsKey, hg, chainMaps, hmaps]

theorem insertAtAncestorGo_spec :
    ∀ (steps : Nat) (p : Environment) (i : Nat) (name : String) (v : LoxType)
      (a : Environment), specWalk p steps = some a →
      ∃ p2, insertAtAncestorGo p i steps name v = .ok p2 ∧
        chainMaps p2 = (chainMaps p).set steps (listInsert a.values name v)
  | 0, .mk vs enc, i, name, v, a, h => by
    simp [specWalk] at h
    subst h
    refine ⟨.mk (listInsert vs name v) enc, by simp [insertAtAncestorGo], ?_⟩
    cases enc <;> simp [chainMaps, Environment.values]
  | steps+1, .mk vs none, i, name, v, a, h => by
    simp [specWalk] at h
  | steps+1, .mk vs (some q), i, name, v, a, h => by
    simp [specWalk] at h
    obtain ⟨p2, hp2, hmaps⟩ := insertAtAncestorGo_spec steps q (i+1) name v a h
    exact ⟨.mk vs (some p2), by simp [insertAtAncestorGo, hp2],
      by simp [chainMaps, hmaps]⟩

/-- assign_at always reports success and writes unconditionally into the
scope exactly distance hops out, creating the binding when absent. -/
theorem assign_at_spec (env : Environment) (d : Nat) (name : String)
    (v : LoxType) (a : Environment) (h : specWalk env d = some a) :
    ∃ e2, Environment.assign_at env d name v = .ok (true, e2) ∧
      chainMaps e2 = (chainMaps env).set d (listInsert a.values name v) := by
  match d with
  | 0 =>
    simp [specWalk] at h
    subst h
    match env with
    | .mk vs enc =>
      refine ⟨.mk (listInsert vs name v) enc, by simp [Environment.assign_at], ?_⟩
      cases enc <;> simp [chainMaps, Environment.values]
  | d+1 =>
    match env with
    | .mk vs none => simp [specWalk] at h
    | .mk vs (some p) =>
      simp [specWalk] at h
      obtain ⟨p2, hp2, hmaps⟩ := insertAtAncestorGo_spec d p 1 name v a h
      refine ⟨.mk vs (some p2), ?_, by simp [chainMaps, hmaps]⟩
      simp [Environment.assign_at, Environment.insert_at_ancestor, hp2]

/-- The arena assign agrees with the value-model assign on the success flag
along any chain the arena reifies. -/
theorem envAssignFuel_fst_of_reify :
    ∀ (fuel : Nat) (envs : List Frame) (ref : Nat) (env : Environment)
      (name : String) (v : LoxType),
      reifyFuel envs fuel ref = some env →
      (envAssignFuel fuel envs ref name v).1 = (Environment.assign env name v).1
  | 0, envs, ref, env, name, v, h => by simp [reifyFuel] at h
  | fuel+1, envs, ref, env, name, v, h => by
    cases hfr : envs[ref]? with
    | none => simp [reifyFuel, hfr] at h
    | some fr =>
      cases henc : fr.enclosing with
      | none =>
        simp [reifyFuel, hfr, henc] at h
        subst h
        cases hg : listGet fr.values name with
        | none =>
          simp [envAssignFuel, hfr, henc, listContainsKey, hg,
            Environment.assign]
        | some w =>
          simp [envAssignFuel, hfr, henc, listContainsKey, hg,
            Environment.assign]
      | some p =>
        simp [reifyFuel, hfr, henc] at h
        obtain ⟨e, he, rfl⟩ := h
        cases hg : listGet fr.values name with
        | none =>
          simpa [envAssignFuel, hfr, henc, listContainsKey, hg,
            Environment.assign] using
            envAssignFuel_fst_of_reify fuel envs p e name v he
        | some w =>
          simp [envAssignFuel, hfr, henc, listContainsKey, hg,
            Environment.assign]

/- Characterizations used by the equality theorems. -/

def isPrimitiveValue : LoxType → Bool
  | .boolean _ => true
  | .nil => true
  | .number _ => true
  | .string _ => true
  | _ => false

def isNaNValue : LoxType → Bool
  | .number .nan => true
  | _ => false

/-
The claims.
-/

/--
C1: running the inheritance example
class A { greet() { return "A"; } }
class B < A { greet() { return super.greet() + "B"; } }
var result = B().greet();
through the resolver and the evaluator produces no error and binds result to
the string "AB": super.greet() resolves greet starting in A, one level above
the class B that statically defines the executing method, found through the
synthetic super binding the resolver recorded for the super token at
hop-distance 2, and the A method runs bound to the runtime B instance, whose
own greet appended "B".  The second program shows the binding to the RUNTIME
this: the A method who, reached through super from B, reads this.tag off the
most-derived B instance and yields "B-instance!".
-/
theorem super_method_resolution :
    (runProg progAB).1 = Outcome.ok () ∧
    envGet (runProg progAB).2.envs 0 "result" = some (LoxType.string "AB") ∧
    localsGet (resolveProgram progAB).locals (superTok 2) = some 2 ∧
    (resolveProgram progAB).errors = [] ∧
    (runProg progThis).1 = Outcome.ok () ∧
    envGet (runProg progThis).2.envs 0 "result2" =
      some (LoxType.string "B-instance!") := by
  refine ⟨by rfl, by rfl, by rfl, by rfl, by rfl, by rfl⟩

/--
C2: the is_initializer flag is computed from the CLASS name, not the method
name (interpreter.rs line 115 reads the class token binding name, the method
token having been rebound to function_name).  Executing
class Foo { init(x) { this.x = x; } } stores an init method whose flag is
false, while executing class init { foo() {} } stores a foo method whose flag
is true; the resolver, by contrast, classifies by METHOD name: it statically
rejects return 1 inside init of class Foo as a return from an initializer.
-/
theorem init_flag_follows_class_name :
    classMethodIsInit (runProg progInitFlag).2 "Foo" "init" = some false ∧
    classMethodIsInit (runProg progClassNamedInit).2 "init" "foo" = some true ∧
    (resolveProgram progInitFlagRet).errors = [msgReturnInInit] := by
  refine ⟨by rfl, by rfl, by rfl⟩

/--
C7 counterexample: runtime value equality is not reflexive; a NaN number is
unequal to itself, following IEEE double equality.
-/
theorem nan_equality_counterexample :
    loxEq (LoxType.number F64.nan) (LoxType.number F64.nan) = false := rfl

/--
C7 amended: equality is reflexive exactly on the primitive values that are
not NaN numbers: every Boolean, Nil and String value and every non-NaN
number equals itself, a NaN number does not, and the Callable, Class and
Instance variants fall to the catch-all arm of the PartialEq impl and are
unequal even to themselves.
-/
theorem equality_reflexivity_characterization (v : LoxType) :
    loxEq v v = (isPrimitiveValue v && !isNaNValue v) := by
  match v with
  | .boolean b => simp [loxEq, isPrimitiveValue, isNaNValue]
  | .nil => simp [loxEq, isPrimitiveValue, isNaNValue]
  | .string s => simp [loxEq, isPrimitiveValue, isNaNValue]
  | .callable f => simp [loxEq, isPrimitiveValue, isNaNValue]
  | .classV c => simp [loxEq, isPrimitiveValue, isNaNValue]
  | .instanceV i => simp [loxEq, isPrimitiveValue, isNaNValue]
  | .number n =>
    match n with
    | .nan => simp [loxEq, isPrimitiveValue, isNaNValue, f64Eq]
    | .negZero => simp [loxEq, isPrimitiveValue, isNaNValue, f64Eq]
    | .inf s => simp [loxEq, isPrimitiveValue, isNaNValue, f64Eq]
    | .val q => simp [loxEq, isPrimitiveValue, isNaNValue, f64Eq]

/-- C7 witness: the reflexivity characterization at concrete values. -/
theorem equality_reflexivity_characterization_witness :
    loxEq LoxType.nil LoxType.nil = true ∧
    loxEq (LoxType.number (.val 5)) (LoxType.number (.val 5)) = true :=
  ⟨(equality_reflexivity_characterization LoxType.nil).trans (by rfl),
   (equality_reflexivity_characterization (LoxType.number (.val 5))).trans (by rfl)⟩

/--
C8 counterexample: two tokens with the same lexeme "x" and the same line 1
but different token types hash identically yet are unequal under the derived
PartialEq, so token equality is not determined by lexeme and line alone.
-/
theorem token_equality_counterexample :
    token_hash_key ⟨.identifier, "x", none, 1⟩ = token_hash_key ⟨.plus, "x", none, 1⟩ ∧
    tokenEq ⟨.identifier, "x", none, 1⟩ ⟨.plus, "x", none, 1⟩ = false := by
  refine ⟨rfl, rfl⟩

/--
C8 amended: the derived token equality is field-wise over token type, lexeme,
literal and line, so equal tokens agree on the token type and on the lexeme
and line, and therefore always hash identically (the hash key being exactly
the lexeme and line); but agreement on lexeme and line alone does not imply
equality.
-/
theorem token_eq_hash_consistency (t1 t2 : Token) (h : tokenEq t1 t2 = true) :
    t1.token_type = t2.token_type ∧ t1.lexeme = t2.lexeme ∧ t1.line = t2.line ∧
    token_hash_key t1 = token_hash_key t2 := by
  simp [tokenEq] at h
  obtain ⟨⟨⟨htt, hlex⟩, hlit⟩, hline⟩ := h
  exact ⟨htt, hlex, hline, by simp [token_hash_key, hlex, hline]⟩

/-- C8 witness: the amended theorem applied to two equal concrete tokens. -/
theorem token_eq_hash_consistency_witness :
    token_hash_key ⟨.identifier, "x", none, 1⟩ = token_hash_key ⟨.identifier, "x", none, 1⟩ :=
  (token_eq_hash_consistency ⟨.identifier, "x", none, 1⟩ ⟨.identifier, "x", none, 1⟩
    (by rfl)).2.2.2

/--
C4 counterexample: a variable access with a recorded hop-distance whose
scope does not contain the name does not raise a runtime error: get_at
panics (a crash), refuting the claim that the interpreter raises a runtime
error and never crashes on every undefined access.
-/
theorem get_at_panics_counterexample :
    lookup_variable [(identTok "x" 1, 0)] (.mk [] none) (.mk [] none)
      (identTok "x" 1) = .panics (undefinedVarPanic "x") := rfl

/--
C4 amended: get_at follows exactly distance links and consults only the
scope reached (no further outward search): a present name yields its value
there; an absent name is an expect PANIC (process crash) whose message
references the name, not a runtime error.  An unresolved reference absent
from the global scope is the runtime error referencing the accessed name.
No access ever produces a default value.
-/
theorem undefined_access_behavior :
    (∀ (env : Environment) (d : Nat) (name : String) (a : Environment),
        specWalk env d = some a → listGet a.values name = none →
        Environment.get_at env d name = .error (undefinedVarPanic name)) ∧
    (∀ (env : Environment) (d : Nat) (name : String) (a : Environment)
        (v : LoxType),
        specWalk env d = some a → listGet a.values name = some v →
        Environment.get_at env d name = .ok (some v)) ∧
    (∀ (locals : List (Token × Nat)) (env globals : Environment) (tok : Token),
        localsGet locals tok = none → Environment.get globals tok.lexeme = none →
        lookup_variable locals env globals tok =
          .runtime_error tok (undefinedVarError tok.lexeme)) ∧
    (∀ (locals : List (Token × Nat)) (env globals : Environment) (tok : Token)
        (d : Nat) (a : Environment),
        localsGet locals tok = some d → specWalk env d = some a →
        listGet a.values tok.lexeme = none →
        lookup_variable locals env globals tok =
          .panics (undefinedVarPanic tok.lexeme)) := by
  refine ⟨?_, ?_, ?_, ?_⟩
  · intro env d name a hw hn
    simp [get_at_spec env d name a hw, hn]
  · intro env d name a v hw hv
    simp [get_at_spec env d name a hw, hv]
  · intro locals env globals tok hl hg
    simp [lookup_variable, hl, hg]
  · intro locals env globals tok d a hl hw hn
    simp [lookup_variable, hl, get_at_spec env d tok.lexeme a hw, hn]

/-- C4 witness: the amended theorem at concrete chains. -/
theorem undefined_access_behavior_witness :
    Environment.get_at (.mk [] (some (.mk [("y", LoxType.nil)] none))) 1 "x" =
      .error (undefinedVarPanic "x") ∧
    Environment.get_at (.mk [] (some (.mk [("y", LoxType.nil)] none))) 1 "y" =
      .ok (some LoxType.nil) ∧
    lookup_variable [] (.mk [] none) (.mk [] none) (identTok "x" 1) =
      .runtime_error (identTok "x" 1) (undefinedVarError "x") ∧
    lookup_variable [(identTok "z" 2, 1)] (.mk [] (some (.mk [] none)))
      (.mk [] none) (identTok "z" 2) = .panics (undefinedVarPanic "z") :=
  ⟨undefined_access_behavior.1 (.mk [] (some (.mk [("y", LoxType.nil)] none))) 1
      "x" (.mk [("y", LoxType.nil)] none) (by rfl) (by rfl),
   undefined_access_behavior.2.1 (.mk [] (some (.mk [("y", LoxType.nil)] none))) 1
      "y" (.mk [("y", LoxType.nil)] none) LoxType.nil (by rfl) (by rfl),
   undefined_access_behavior.2.2.1 [] (.mk [] none) (.mk [] none)
      (identTok "x" 1) (by rfl) (by rfl),
   undefined_access_behavior.2.2.2 [(identTok "z" 2, 1)]
      (.mk [] (some (.mk [] none))) (.mk [] none) (identTok "z" 2) 1
      (.mk [] none) (by rfl) (by rfl) (by rfl)⟩

/--
C5 counterexample: assign_at on a scope that does not define the name
reports success and creates the binding, refuting the claim that assign_at
mutates only an existing binding and never creates one.
-/
theorem assign_at_creates_binding :
    Environment.assign_at (.mk [] none) 0 "x" LoxType.nil =
      .ok (true, .mk [("x", LoxType.nil)] none) := rfl

/--
C5 amended: assign behaves as claimed: it succeeds exactly when the name
already exists somewhere on the chain, mutates the first scope searching
outward that defines it (leaving every other scope map unchanged), and on
failure leaves the chain unchanged.  assign_at however always reports
success and writes unconditionally into the scope exactly distance hops out,
creating the binding when absent.
-/
theorem assign_and_assign_at_behavior :
    (∀ (env : Environment) (name : String) (v : LoxType),
        (Environment.assign env name v).1 = (Environment.get env name).isSome) ∧
    (∀ (env : Environment) (name : String) (v : LoxType),
        Environment.get env name = none → (Environment.assign env name v).2 = env) ∧
    (∀ (env : Environment) (name : String) (v : LoxType) (k : Nat),
        firstHop env name = some k →
        ∃ vs, (chainMaps env)[k]? = some vs ∧
          chainMaps (Environment.assign env name v).2 =
            (chainMaps env).set k (listInsert vs name v)) ∧
    (∀ (env : Environment) (d : Nat) (name : String) (v : LoxType)
        (a : Environment), specWalk env d = some a →
        ∃ e2, Environment.assign_at env d name v = .ok (true, e2) ∧
          chainMaps e2 = (chainMaps env).set d (listInsert a.values name v)) :=
  ⟨assign_fst_eq, assign_snd_of_not_found,
   fun env name v k h => assign_chainMaps env name v k h,
   fun env d name v a h => assign_at_spec env d name v a h⟩

/-- C5 witness: the amended theorem at concrete chains. -/
theorem assign_and_assign_at_behavior_witness :
    (Environment.assign (.mk [] (some (.mk [("x", LoxType.nil)] none))) "x"
      (.boolean true)).1 = true ∧
    (Environment.assign (.mk [] none) "x" LoxType.nil).2 = .mk [] none ∧
    (∃ vs, (chainMaps (.mk [] (some (.mk [("x", LoxType.nil)] none))))[1]? = some vs ∧
      chainMaps (Environment.assign (.mk [] (some (.mk [("x", LoxType.nil)] none)))
          "x" (.boolean true)).2 =
        (chainMaps (.mk [] (some (.mk [("x", LoxType.nil)] none)))).set 1
          (listInsert vs "x" (.boolean true))) ∧
    (∃ e2, Environment.assign_at (.mk [] (some (.mk [] none))) 1 "w" LoxType.nil =
        .ok (true, e2) ∧
      chainMaps e2 = (chainMaps (.mk [] (some (.mk [] none)))).set 1
        (listInsert [] "w" LoxType.nil)) :=
  ⟨(assign_and_assign_at_behavior.1 (.mk [] (some (.mk [("x", LoxType.nil)] none)))
      "x" (.boolean true)).trans (by rfl),
   assign_and_assign_at_behavior.2.1 (.mk [] none) "x" LoxType.nil (by rfl),
   assign_and_assign_at_behavior.2.2.1
      (.mk [] (some (.mk [("x", LoxType.nil)] none))) "x" (.boolean true) 1 (by rfl),
   assign_and_assign_at_behavior.2.2.2 (.mk [] (some (.mk [] none))) 1 "w"
      LoxType.nil (.mk [] none) (by rfl)⟩

/-- The concrete state of the C3 counterexample: the globals (frame 0) are
empty and the current environment (frame 1, enclosing the globals) defines x. -/
def c3State : State :=
  ⟨[⟨[], none⟩, ⟨[("x", .number (.val 1))], some 0⟩], [], 0, 1, [], []⟩

/--
C3 counterexample: with no recorded hop-distance for x, where x is defined
only in the current local frame and absent from the global scope, the
assignment x = 2 nevertheless succeeds and mutates the local frame: the
write fallback is an outward scan of the current environment chain, not a
lookup in the global scope only.
-/
theorem assign_fallback_counterexample :
    evaluate 9 (.assign (identTok "x" 1) (.literal (.number (.val 2)))) c3State =
      (.ok (.number (.val 2)),
       ⟨[⟨[], none⟩, ⟨[("x", .number (.val 2))], some 0⟩], [], 0, 1, [], []⟩) ∧
    envGet c3State.envs c3State.globals "x" = none := ⟨rfl, rfl⟩

/--
C3 amended: a variable READ with no recorded hop-distance consults only the
own map of the global scope (given that the global frame has no enclosing
link, as in every state the interpreter builds).  A variable WRITE with no
recorded hop-distance falls back to Environment::assign rooted at the
CURRENT environment: an outward scan of the current chain that succeeds
exactly when the name is defined somewhere on that chain — not a
global-scope-only lookup.
-/
theorem unresolved_access_fallback :
    (∀ (st : State) (tok : Token) (fr : Frame),
        localsGet st.locals tok = none → st.envs[st.globals]? = some fr →
        fr.enclosing = none →
        st.lookupVariable tok =
          (match listGet fr.values tok.lexeme with
           | some v => Outcome.ok v
           | none => Outcome.err (some tok) (undefinedVarError tok.lexeme))) ∧
    (∀ (fuel : Nat) (st : State) (tok : Token) (lit : LoxLit) (env : Environment),
        localsGet st.locals tok = none →
        reifyEnv st.envs st.cur = some env →
        evaluate (fuel+2) (.assign tok (.literal lit)) st =
          (if (Environment.get env tok.lexeme).isSome
            then Outcome.ok (litToLox lit)
            else Outcome.err (some tok) (undefinedVarError tok.lexeme),
           setEnvs st (envAssign st.envs st.cur tok.lexeme (litToLox lit)).2)) := by
  constructor
  · intro st tok fr hl hfr henc
    cases hg : listGet fr.values tok.lexeme with
    | some v =>
      simp [State.lookupVariable, hl, envGet, envGetFuel, hfr, hg]
    | none =>
      simp [State.lookupVariable, hl, envGet, envGetFuel, hfr, hg, henc]
  · intro fuel st tok lit env hl hre
    have hr : (envAssign st.envs st.cur tok.lexeme (litToLox lit)).1 =
        (Environment.get env tok.lexeme).isSome := by
      have hsim := envAssignFuel_fst_of_reify (st.envs.length + 1) st.envs st.cur
        env tok.lexeme (litToLox lit) hre
      simpa [envAssign] using
        hsim.trans (assign_fst_eq env tok.lexeme (litToLox lit))
    have hlit : evaluate (fuel+1) (.literal lit) st = (.ok (litToLox lit), st) := by
      simp [evaluate]
    simp only [evaluate, hlit, andThen, hl]
    rw [hr]
    cases hb : (Environment.get env tok.lexeme).isSome <;> simp

/-- C3 witness: the amended theorem at the concrete counterexample state. -/
theorem unresolved_access_fallback_witness :
    c3State.lookupVariable (identTok "x" 1) =
      Outcome.err (some (identTok "x" 1)) (undefinedVarError "x") ∧
    evaluate 9 (.assign (identTok "x" 1) (.literal (.number (.val 2)))) c3State =
      (Outcome.ok (.number (.val 2)),
       setEnvs c3State (envAssign c3State.envs c3State.cur "x" (.number (.val 2))).2) :=
  ⟨unresolved_access_fallback.1 c3State (identTok "x" 1) ⟨[], none⟩
      (by rfl) (by rfl) (by rfl),
   unresolved_access_fallback.2 7 c3State (identTok "x" 1) (.number (.val 2))
      (.mk [("x", .number (.val 1))] (some (.mk [] none))) (by rfl) (by rfl)⟩

/-- execute_block restores the prior current environment around any result. -/
theorem exec_block_cur (fuel : Nat) (stmts : List Stmt) (envRef : Nat)
    (st : State) : ((execute_block fuel stmts envRef st).2).cur = st.cur := by
  cases fuel <;> rfl

/--
C9: executing a Block creates a fresh environment frame whose enclosing link
is the current environment, runs the statements in it through execute_block,
and execute_block restores the prior current-environment reference around
EVERY result — ok, runtime error, Return, panic or fuel exhaustion — so after
a failing block the current environment is exactly what it was before.
-/
theorem block_env_restoration :
    (∀ (fuel : Nat) (stmts : List Stmt) (envRef : Nat) (st : State),
        ((execute_block fuel stmts envRef st).2).cur = st.cur) ∧
    (∀ (fuel : Nat) (stmts : List Stmt) (st : State) (res : Outcome Unit)
        (st' : State),
        execute fuel (Stmt.block stmts) st = (res, st') → st'.cur = st.cur) ∧
    (∀ (fuel : Nat) (stmts : List Stmt) (st : State),
        execute (fuel+1) (Stmt.block stmts) st =
          execute_block fuel stmts st.envs.length
            {st with envs := st.envs ++ [⟨[], some st.cur⟩]}) := by
  refine ⟨exec_block_cur, ?_, ?_⟩
  · intro fuel stmts st res st' h
    cases fuel with
    | zero => cases h; rfl
    | succ f =>
      have he : execute (f+1) (Stmt.block stmts) st =
          execute_block f stmts st.envs.length
            {st with envs := st.envs ++ [⟨[], some st.cur⟩]} := by
        simp [execute, allocEnv]
      rw [he] at h
      have h2 := exec_block_cur f stmts st.envs.length
        {st with envs := st.envs ++ [⟨[], some st.cur⟩]}
      rw [h] at h2
      exact h2
  · intro fuel stmts st
    simp [execute, allocEnv]

/-- C9 witness: restoration at a concrete failing block (the body reads an
undefined variable) and the fresh-frame equation at a concrete state. -/
theorem block_env_restoration_witness :
    ((execute 5 (Stmt.block [Stmt.expression (Expr.variableE (identTok "q" 1))])
        initialState).2).cur = initialState.cur ∧
    execute 6 (Stmt.block []) c3State =
      execute_block 5 [] c3State.envs.length
        {c3State with envs := c3State.envs ++ [⟨[], some c3State.cur⟩]} :=
  ⟨block_env_restoration.2.1 5 [Stmt.expression (Expr.variableE (identTok "q" 1))]
      initialState
      (execute 5 (Stmt.block [Stmt.expression (Expr.variableE (identTok "q" 1))])
        initialState).1
      (execute 5 (Stmt.block [Stmt.expression (Expr.variableE (identTok "q" 1))])
        initialState).2 (by rfl),
   block_env_restoration.2.2 5 [] c3State⟩

/- Helper lemmas for the class-instantiation theorems. -/

/-- A class without an init method (own or inherited): calling it allocates a
fresh instance with an empty field table and a reference to the class, raises
no arity error for any argument list, and yields the instance. -/
theorem instantiate_no_init (fuel : Nat) (cls : LoxClass) (args : List LoxType)
    (paren : Token) (st : State) (h : cls.find_method "init" = none) :
    instantiateClass (fuel+1) cls args paren st =
      (.ok (.instanceV st.insts.length), {st with insts := st.insts ++ [⟨cls, []⟩]}) := by
  simp [instantiateClass, allocInst, h]

/-- An init arity mismatch is the runtime error naming expected and actual
counts, raised after the instance allocation and before any call. -/
theorem instantiate_arity_error (fuel : Nat) (cls : LoxClass)
    (args : List LoxType) (paren : Token) (st : State) (init : Function)
    (h : cls.find_method "init" = some init) (hne : args.length ≠ init.arity) :
    instantiateClass (fuel+1) cls args paren st =
      (.err (some paren) (arityMsg init.arity args.length),
       {st with insts := st.insts ++ [⟨cls, []⟩]}) := by
  have hb : (args.length == init.arity) = false := by simpa using hne
  simp [instantiateClass, allocInst, h, hb]

/-- When init exists and the arity matches, it is bound to the fresh instance
and called immediately with the arguments; whatever value the call returns is
discarded and the instantiation yields the instance. -/
theorem instantiate_init_called (fuel : Nat) (cls : LoxClass)
    (args : List LoxType) (paren : Token) (st : State) (init : Function)
    (v : LoxType) (s : State)
    (h : cls.find_method "init" = some init) (ha : args.length = init.arity)
    (hc : callFunction fuel
        (bindFunction {st with insts := st.insts ++ [⟨cls, []⟩]} init
          (.instanceV st.insts.length)).1 args
        (bindFunction {st with insts := st.insts ++ [⟨cls, []⟩]} init
          (.instanceV st.insts.length)).2 = (.ok v, s)) :
    instantiateClass (fuel+1) cls args paren st =
      (.ok (.instanceV st.insts.length), s) := by
  simp [instantiateClass, allocInst, h, ha, hc, andThen]

/--
C6: calling a class allocates an Instance with an empty field table and a
shared reference to the class; a resolved init is bound to the new instance
and called immediately with the constructor arguments after an exact arity
check whose mismatch error names the expected and actual counts; the call
yields the instance with the init result discarded.  Concretely, for
class C { init(x) { this.x = x; } }, C(5) returns the instance with field x
bound to 5, also when init ends in an explicit return, and C(5, 6) is the
runtime error "Expected 1 arguments but got 2.".
-/
theorem class_instantiation_contract :
    (∀ (fuel : Nat) (cls : LoxClass) (args : List LoxType) (paren : Token)
        (st : State) (init : Function),
        cls.find_method "init" = some init → args.length ≠ init.arity →
        instantiateClass (fuel+1) cls args paren st =
          (.err (some paren) (arityMsg init.arity args.length),
           {st with insts := st.insts ++ [⟨cls, []⟩]})) ∧
    (∀ (fuel : Nat) (cls : LoxClass) (args : List LoxType) (paren : Token)
        (st : State) (init : Function) (v : LoxType) (s : State),
        cls.find_method "init" = some init → args.length = init.arity →
        callFunction fuel
          (bindFunction {st with insts := st.insts ++ [⟨cls, []⟩]} init
            (.instanceV st.insts.length)).1 args
          (bindFunction {st with insts := st.insts ++ [⟨cls, []⟩]} init
            (.instanceV st.insts.length)).2 = (.ok v, s) →
        instantiateClass (fuel+1) cls args paren st =
          (.ok (.instanceV st.insts.length), s)) ∧
    ((runProg progC).1 = Outcome.ok () ∧
     envGet (runProg progC).2.envs 0 "i" = some (.instanceV 0) ∧
     instFields (runProg progC).2 0 = some [("x", .number (.val 5))] ∧
     instClassName (runProg progC).2 0 = some "C") ∧
    ((runProg progCRet).1 = Outcome.ok () ∧
     instFields (runProg progCRet).2 0 = some [("x", .number (.val 5))]) ∧
    (runProg progCArity).1 =
      Outcome.err (some (parenTok 2)) "Expected 1 arguments but got 2." := by
  refine ⟨instantiate_arity_error, instantiate_init_called,
    ⟨by rfl, by rfl, by rfl, by rfl⟩, ⟨by rfl, by rfl⟩, by rfl⟩

/-- A class with a zero-parameter init, used to instantiate the general
conjuncts of the class-call theorems at a concrete input. -/
def demoInitCls : LoxClass :=
  .mk "K" [("init", .user (identTok "init" 1) [] [] 0 false)] none

/-- C6 witness: the general conjuncts at a concrete class, arguments and
state. -/
theorem class_instantiation_contract_witness :
    (instantiateClass 9 demoInitCls [LoxType.nil] (parenTok 1) initialState).1 =
      .err (some (parenTok 1)) (arityMsg 0 1) ∧
    (instantiateClass 9 demoInitCls [] (parenTok 1) initialState).1 =
      .ok (.instanceV 0) :=
  ⟨congrArg Prod.fst
      (class_instantiation_contract.1 8 demoInitCls [LoxType.nil] (parenTok 1)
        initialState (.user (identTok "init" 1) [] [] 0 false) (by rfl) (by decide)),
   congrArg Prod.fst
      (class_instantiation_contract.2.1 8 demoInitCls [] (parenTok 1)
        initialState (.user (identTok "init" 1) [] [] 0 false) LoxType.nil
        (callFunction 8
          (bindFunction {initialState with insts := [⟨demoInitCls, []⟩]}
            (.user (identTok "init" 1) [] [] 0 false) (.instanceV 0)).1 []
          (bindFunction {initialState with insts := [⟨demoInitCls, []⟩]}
            (.user (identTok "init" 1) [] [] 0 false) (.instanceV 0)).2).2
        (by rfl) (by rfl) (by rfl))⟩

/--
C10: calling a class that defines no init method, neither directly nor
through a superclass (find_method resolves nothing), raises no arity error
for any argument list: a fresh instance with an empty field table is
returned and the already-evaluated arguments are discarded.  Concretely,
var s = ""; class D {}; var i = D(s = s + "a", s = s + "b"); runs without
error, leaves s bound to "ab" (the arguments were evaluated left to right,
their side effects kept) and i bound to an instance with no fields.
-/
theorem no_init_class_call :
    (∀ (fuel : Nat) (cls : LoxClass) (args : List LoxType) (paren : Token)
        (st : State),
        cls.find_method "init" = none →
        instantiateClass (fuel+1) cls args paren st =
          (.ok (.instanceV st.insts.length),
           {st with insts := st.insts ++ [⟨cls, []⟩]})) ∧
    ((runProg progD).1 = Outcome.ok () ∧
     envGet (runProg progD).2.envs 0 "s" = some (.string "ab") ∧
     envGet (runProg progD).2.envs 0 "i" = some (.instanceV 0) ∧
     instFields (runProg progD).2 0 = some []) := by
  refine ⟨instantiate_no_init, by rfl, by rfl, by rfl, by rfl⟩

/-- C10 witness: the general conjunct at a concrete class called with two
arguments, raising no arity error. -/
theorem no_init_class_call_witness :
    instantiateClass 9 (.mk "D" [] none) [LoxType.nil, .boolean true]
      (parenTok 1) initialState =
      (.ok (.instanceV 0), {initialState with insts := [⟨.mk "D" [] none, []⟩]}) :=
  no_init_class_call.1 8 (.mk "D" [] none) [LoxType.nil, .boolean true]
    (parenTok 1) initialState (by rfl)

end RLox
